import Mathlib

/-!
Verification of the declaration-time contract system of
`composio/tools/base/abs.py`: typed Actions grouped into Tools, schema
compilation from typed models, declaration-time validation, and the
process-wide tool/action/trigger registries.

The Python source is shallowly embedded: Python dicts become association
lists over a JSON value type, exceptions become `Except` values, and
class-level mutation (registries, per-type schema caches) becomes explicit
state passing.  External collaborators (pydantic schema generation,
`jsonref` dereferencing, `inflection`, `hashlib.md5`) are injected as
explicit inputs, never reimplemented; everything defined here follows the
source line by line.
-/

namespace Composio

/-- JSON-like values, the shape of the dictionaries `abs.py` manipulates. -/
inductive JVal where
  | null : JVal
  | bool (b : Bool) : JVal
  | num (n : Int) : JVal
  | str (s : String) : JVal
  | arr (xs : List JVal) : JVal
  | obj (fields : List (String × JVal)) : JVal

/-- A Python dict with string keys, modelled as an insertion-ordered
association list. -/
abbrev AList := List (String × JVal)

/-- Python exceptions raised by the embedded code. `invalidClassDefinition`
is the `DeclarationError` of the spec (class `InvalidClassDefinition` in the
source). -/
inductive PyErr where
  | invalidClassDefinition (msg : String) : PyErr
  | valueError (msg : String) : PyErr
  | keyError (key : String) : PyErr
  | attributeError (attr : String) : PyErr
  | typeError (msg : String) : PyErr
deriving DecidableEq, Repr

/-- Dict read: `d.get(key)` / `key in d`. Returns the first binding. -/
def aget {α : Type} : List (String × α) → String → Option α
  | [], _ => none
  | (k, v) :: rest, key => if k = key then some v else aget rest key

/-- Dict write `d[key] = v`: replaces the binding in place when the key is
present, appends it otherwise (Python dicts keep insertion order). -/
def aset {α : Type} : List (String × α) → String → α → List (String × α)
  | [], key, v => [(key, v)]
  | (k, w) :: rest, key, v =>
      if k = key then (k, v) :: rest else (k, w) :: aset rest key v

/-- Dict deletion `del d[key]` / the removal part of `d.pop(key)`: drops the
first binding of the key. -/
def adel {α : Type} : List (String × α) → String → List (String × α)
  | [], _ => []
  | (k, v) :: rest, key => if k = key then rest else (k, v) :: adel rest key

/-- Replace the value bound to a key, leaving the dict unchanged when the
key is absent. -/
def amodify {α : Type} : List (String × α) → String → (α → α) → List (String × α)
  | [], _, _ => []
  | (k, v) :: rest, key, f =>
      if k = key then (k, f v) :: rest else (k, v) :: amodify rest key f

/-- Python `d.update(m)`: writes every binding of `m` into `d` in order. -/
def aupdate {α : Type} (d : List (String × α)) (m : List (String × α)) : List (String × α) :=
  m.foldl (fun acc kv => aset acc kv.1 kv.2) d

/-- The apostrophe character Python `repr` puts around strings. -/
def squote : String := String.singleton (Char.ofNat 39)

/-- Python `sep.join(parts)`. -/
def pyJoin (sep : String) : List String → String
  | [] => ""
  | [x] => x
  | x :: y :: rest => x ++ sep ++ pyJoin sep (y :: rest)

/-- Python `s.lstrip().rstrip()` (whitespace trimming on both ends). -/
def pyStrip (s : String) : String :=
  String.mk (((s.data.dropWhile Char.isWhitespace).reverse.dropWhile Char.isWhitespace).reverse)

/-- Python `s.upper()` (the identifiers involved are ASCII). -/
def pyUpper (s : String) : String := String.mk (s.data.map Char.toUpper)

/-- Python truthiness of a JSON value, as used by
`prop.get("file_readable", False)`. -/
def pyTruthy : JVal → Bool
  | .null => false
  | .bool b => b
  | .num n => n != 0
  | .str s => s != ""
  | .arr xs => !xs.isEmpty
  | .obj fields => !fields.isEmpty

mutual

/-- Python `repr`/`str` of a JSON value (scalars and lists; `str()` of a
string returns the string itself only at the interpolation sites, see
`pyStrOf`). -/
def pyRepr : JVal → String
  | .null => "None"
  | .bool b => if b then "True" else "False"
  | .num n => toString n
  | .str s => squote ++ s ++ squote
  | .arr xs => "[" ++ pyReprList xs ++ "]"
  | .obj fields => "\x7b" ++ pyReprObj fields ++ "\x7d"

def pyReprList : List JVal → String
  | [] => ""
  | [x] => pyRepr x
  | x :: y :: rest => pyRepr x ++ ", " ++ pyReprList (y :: rest)

def pyReprObj : List (String × JVal) → String
  | [] => ""
  | [(k, v)] => squote ++ k ++ squote ++ ": " ++ pyRepr v
  | (k, v) :: p :: rest =>
      squote ++ k ++ squote ++ ": " ++ pyRepr v ++ ", " ++ pyReprObj (p :: rest)

end

/-- Python `str(v)` as used inside an f-string: a string interpolates as
itself, anything else via `repr`-like rendering. -/
def pyStrOf : JVal → String
  | .str s => s
  | v => pyRepr v

/-- A field of a pydantic model, as the external pydantic/jsonref pipeline
presents it to `abs.py`: the alias-preferred field name, the property schema
that `model_json_schema(by_alias=True)` followed by `remove_json_ref`
produces for it, and whether the field is required. -/
structure FieldDef where
  name : String
  propSchema : AList
  required : Bool

/-- A typed model: its declared class name (`__name__`, also its schema
title) and its fields in declaration order. -/
structure PyModel where
  name : String
  fields : List FieldDef

/-- Output of the external `model_json_schema(by_alias=True)` call after
`remove_json_ref`, for the flat models the claims exercise: a `properties`
object in field order, a `required` list (omitted by pydantic when empty,
as no field is required), the model title and `"type": "object"`. -/
def pydanticModelSchema (m : PyModel) : AList :=
  [("properties", JVal.obj (m.fields.map fun f => (f.name, JVal.obj f.propSchema)))]
    ++ (if (m.fields.filter (·.required)).isEmpty then []
        else [("required", JVal.arr ((m.fields.filter (·.required)).map fun f => JVal.str f.name))])
    ++ [("title", JVal.str m.name), ("type", JVal.str "object")]

/-- The `successful` field `_Response.wrap` adds:
`successful: bool = Field(..., description=...)`, rendered by pydantic as a
required boolean property. -/
def successfulField : FieldDef :=
  { name := "successful"
    propSchema :=
      [("description", JVal.str "Whether or not the action execution was successful or not"),
       ("title", JVal.str "Successful"), ("type", JVal.str "boolean")]
    required := true }

/-- The `error` field `_Response.wrap` adds:
`error: t.Optional[str] = Field(None, description=...)`, rendered by
pydantic as an optional nullable-string property with default `null`. -/
def errorField : FieldDef :=
  { name := "error"
    propSchema :=
      [("anyOf", JVal.arr [JVal.obj [("type", JVal.str "string")],
                           JVal.obj [("type", JVal.str "null")]]),
       ("default", JVal.null),
       ("description", JVal.str "Error if any occured during the execution of the action"),
       ("title", JVal.str "Error")]
    required := false }

/-- Embeds `_Response.wrap`: `class wrapper(model)` with the two extra fields;
pydantic lists inherited fields first, then those of the subclass. -/
def Response.wrap (m : PyModel) : PyModel :=
  { name := "wrapper", fields := m.fields ++ [successfulField, errorField] }

/-- Embeds `_Response.schema`: the pydantic schema of the wrapper with `title`
overridden to the `__name__` of the unwrapped model.  The trailing `remove_json_ref` call is
the identity on the reference-free documents produced here. -/
def Response.schema (m : PyModel) : AList :=
  aset (pydanticModelSchema (Response.wrap m)) "title" (JVal.str m.name)

/-- The per-property transform in the loop of `_Request.schema`, applied to
one property dict: the `file_readable` branch builds the two-branch `oneOf`
and deletes `type`; otherwise a single-branch `allOf` holding an `enum` is
inlined (`pop` then `update`) and the options note is appended to the
description.  Python errors (`del` on a missing key, `+=` on a missing or
non-string description) surface as `PyErr`. -/
def transformPropFields (prop : AList) : Except PyErr AList :=
  if pyTruthy ((aget prop "file_readable").getD JVal.null) then
    let prop1 := aset prop "oneOf" (JVal.arr
      [JVal.obj [("type", (aget prop "type").getD JVal.null),
                 ("description", (aget prop "description").getD (JVal.str ""))],
       JVal.obj [("type", JVal.str "string"), ("format", JVal.str "file-path"),
                 ("description", JVal.str ("File path to "
                    ++ pyStrOf ((aget prop "description").getD (JVal.str ""))))]])
    match aget prop1 "type" with
    | none => .error (.keyError "type")
    | some _ => .ok (adel prop1 "type")
  else
    match aget prop "allOf" with
    | some (JVal.arr [JVal.obj branch]) =>
        if (aget branch "enum").isSome then
          let prop2 := aupdate (adel prop "allOf") branch
          match aget prop2 "description" with
          | some (JVal.str d) =>
              match aget prop2 "enum" with
              | some ev => .ok (aset prop2 "description"
                  (JVal.str (d ++ " Note: choose value only from following options - "
                    ++ pyStrOf ev)))
              | none => .error (.keyError "enum")
          | some _ => .error (.typeError "can only concatenate str to str")
          | none => .error (.keyError "description")
        else .ok prop
    | _ => .ok prop

/-- One property value of the `properties` dict; the loop only ever sees
dict-valued properties. -/
def transformPropVal : JVal → Except PyErr JVal
  | .obj prop => (transformPropFields prop).map JVal.obj
  | v => .ok v

/-- The loop `for prop in properties.values()` of `_Request.schema`,
rebuilding the properties dict with each value transformed; a raise inside
the loop aborts the whole schema call. -/
def transformProps : AList → Except PyErr AList
  | [] => .ok []
  | (k, v) :: rest =>
      match transformPropVal v with
      | .error e => .error e
      | .ok v' =>
          match transformProps rest with
          | .error e => .error e
          | .ok rest' => .ok ((k, v') :: rest')

/-- Embeds `_Request.schema`: takes the dereferenced pydantic document (`$defs`
already dropped; the flat models here produce none), transforms every
top-level property, and writes the properties back. -/
def Request.schema (m : PyModel) : Except PyErr AList :=
  let request := pydanticModelSchema m
  let properties := match aget request "properties" with
    | some (JVal.obj l) => l
    | _ => []
  match transformProps properties with
  | .error e => .error e
  | .ok properties' => .ok (aset request "properties" (JVal.obj properties'))

/-- One entry of `e.errors()` from a pydantic `ValidationError`: the dotted
location (already stringified, as `".".join(map(str, error["loc"]))` sees
it), the error type tag and the human message. -/
structure PydanticFieldError where
  loc : List String
  errType : String
  msg : String

/-- Python `".".join(map(str, error["loc"]))`. -/
def dottedLoc (e : PydanticFieldError) : String := pyJoin "." e.loc

/-- The non-missing rendering in `_Request.parse`:
`error["msg"] + f" on parameter `{param}`"`. -/
def renderOther (e : PydanticFieldError) : String :=
  e.msg ++ " on parameter `" ++ dottedLoc e ++ "`"

/-- The loop of `_Request.parse` splitting errors into the `missing` and
`others` accumulators (the initial `""` sentinel of `others` is added by
`validationMessage`). -/
def splitErrors : List PydanticFieldError → List String × List String
  | [] => ([], [])
  | e :: rest =>
      let (missing, others) := splitErrors rest
      if e.errType = "missing" then (dottedLoc e :: missing, others)
      else (missing, renderOther e :: others)

/-- Python `repr` of `set(missing)`.  A CPython set iterates in an
unspecified hash-based order; it is modelled with first-occurrence
deduplication order, which agrees on membership. -/
def pySetRepr (names : List String) : String :=
  "\x7b" ++ pyJoin ", " ((names.dedup).map fun s => squote ++ s ++ squote) ++ "\x7d"

/-- The aggregated message `_Request.parse` raises: the base line, the
missing-fields set when any field is missing, then the joined other
errors (whose accumulator starts as `[""]`). -/
def validationMessage (es : List PydanticFieldError) : String :=
  let (missing, others) := splitErrors es
  let base := "Invalid request data provided"
  let withMissing :=
    if missing.length > 0
    then base ++ "\n- Following fields are missing: " ++ pySetRepr missing
    else base
  withMissing ++ pyJoin "\n- " ("" :: others)

/-- Embeds `_Request.parse`: the validation pydantic itself performs
(`self.model(**request)`) is
external and injected as `validate`; on failure the single aggregated
`ValueError` is raised. -/
def Request.parse {M : Type} (validate : AList → Except (List PydanticFieldError) M)
    (request : AList) : Except PyErr M :=
  match validate request with
  | .ok m => .ok m
  | .error es => .error (.valueError (validationMessage es))

/-- A type argument as `t.get_args` reports it: one of the two unbound
placeholder type variables (`ActionRequest`, `ActionResponse`) or a concrete
model type. -/
inductive TypeRef where
  | actionRequest : TypeRef
  | actionResponse : TypeRef
  | named (s : String) : TypeRef
deriving DecidableEq, Repr

/-- What `ActionMeta.__init__` sees of a freshly declared Action class: its
name, the `abs` marker, the generic arguments of each entry of
`__orig_bases__` (a subclass that does not subscript `Action` inherits the
multi-entry `__orig_bases__` of `Action` itself), and whether the inherited
`execute` is still abstract. -/
structure ActionDecl where
  name : String
  absFlag : Bool
  origBases : List (List TypeRef)
  executeAbstract : Bool
deriving DecidableEq, Repr

/-- The message of the `InvalidClassDefinition` raised by
`ActionBuilder.set_generics`. -/
def genericsMsg (name : String) : String :=
  "Invalid action class definition, please define your class "
    ++ "using request and response type generics; "
    ++ "class " ++ name ++ "(Action[RequestModel, ResponseModel])"

/-- Embeds `ActionBuilder.set_generics`: unpacks the single generic base and its
two type arguments (any shape mismatch raises `ValueError`, caught and
re-raised as `InvalidClassDefinition`) and rejects placeholder arguments. -/
def ActionBuilder.set_generics (name : String) (origBases : List (List TypeRef)) :
    Except PyErr (TypeRef × TypeRef) :=
  match origBases with
  | [generic] =>
      match generic with
      | [request, response] =>
          if request = TypeRef.actionRequest ∨ response = TypeRef.actionResponse then
            .error (.invalidClassDefinition (genericsMsg name))
          else .ok (request, response)
      | _ => .error (.invalidClassDefinition (genericsMsg name))
  | _ => .error (.invalidClassDefinition (genericsMsg name))

/-- Embeds `ActionBuilder.validate`: rejects a still-abstract `execute`. -/
def ActionBuilder.validate (name : String) (executeAbstract : Bool) : Except PyErr Unit :=
  if executeAbstract then
    .error (.invalidClassDefinition ("Please implement " ++ name ++ ".execute"))
  else .ok ()

/-- Embeds `ActionMeta.__init__`: skips abstract declarations and the `Action` base
itself, otherwise validates `execute` then binds the generics (metadata
assignment follows and cannot fail; its description rule is
`setMetadataDescription`).  Returns the bound (request, response) pair for a
processed concrete class. -/
def ActionMeta.init (decl : ActionDecl) : Except PyErr (Option (TypeRef × TypeRef)) :=
  if decl.absFlag ∨ decl.name = "Action" then .ok none
  else
    match ActionBuilder.validate decl.name decl.executeAbstract with
    | .error e => .error e
    | .ok _ =>
        match ActionBuilder.set_generics decl.name decl.origBases with
        | .error e => .error e
        | .ok rr => .ok (some rr)

/-- Python `a or b` on strings: `b` when `a` is `None` or empty. -/
def pyOrStr : Option String → String → String
  | none, fallback => fallback
  | some s, fallback => if s = "" then fallback else s

/-- The description rule shared by `ActionBuilder.set_metadata` and
`ToolBuilder.set_metadata`: `(obj.__doc__ or obj.display_name).lstrip().rstrip()`. -/
def setMetadataDescription (doc : Option String) (displayName : String) : String :=
  pyStrip (pyOrStr doc displayName)

/-- How a required Tool method is declared on a subclass: still abstract, or
concrete and (not) a classmethod. -/
structure ToolMethodInfo where
  isAbstract : Bool
  isClassMethod : Bool
deriving DecidableEq, Repr

/-- Embeds `ToolBuilder.validate`: walks the required method names in order and
raises `InvalidClassDefinition` for the first one that is abstract or not a
classmethod. -/
def ToolBuilder.validate (name : String) :
    List (String × ToolMethodInfo) → Except PyErr Unit
  | [] => .ok ()
  | (m, info) :: rest =>
      if info.isAbstract then
        .error (.invalidClassDefinition ("Please implement " ++ name ++ "." ++ m))
      else if info.isClassMethod = false then
        .error (.invalidClassDefinition
          ("Please implement " ++ name ++ "." ++ m ++ " as class method"))
      else ToolBuilder.validate name rest

/-- Modelled from the spec: the declaration-time hook that invokes
`ToolBuilder.validate` on each concrete Tool type is not part of `src/`
(`Tool.__init_subclass__` there is a no-op; the metaclasses that wire it up
live in sibling modules).  Spec section 4.3: validation is "invoked once
when a concrete Action or Tool type is declared" and "happens exactly once
per concrete type, at declaration time, never re-run".  The second component
counts how many times the hook ran `ToolBuilder.validate`. -/
def declareToolType (name : String) (methods : List (String × ToolMethodInfo)) :
    Except PyErr Unit × Nat :=
  (ToolBuilder.validate name methods, 1)

/-- An Action class as the registry stores it: snake-case name, enum key
(upper-cased class name before registration, tool-namespaced after), and the
`tool` attribute that only registration assigns. -/
structure RegAction where
  name : String
  enum : String
  tool : Option String
deriving DecidableEq, Repr

/-- A Tool class as `ToolBuilder.setup_children` and `Tool.register` see it:
identity fields from `set_metadata`, the declared `actions()` list, the
`_actions` container, and the optional `triggers()` capability
(`hasattr(obj, "triggers")`). -/
structure RegTool where
  name : String
  enum : String
  gid : String
  actions : List RegAction
  actionsMap : List (String × RegAction)
  triggers : Option (List RegAction)
  triggersMap : List (String × RegAction)
deriving DecidableEq, Repr

/-- A two-level registry store: group id, then enum key. -/
abbrev Reg (α : Type) := List (String × List (String × α))

/-- The three module-level registries. -/
structure RegistryState where
  tools : Reg RegTool
  actions : Reg RegAction
  triggers : Reg RegAction
deriving DecidableEq, Repr

/-- The module-level initial state: each registry starts with empty
`runtime`, `local` and `api` groups. -/
def initialRegistry : RegistryState :=
  { tools := [("runtime", []), ("local", []), ("api", [])]
    actions := [("runtime", []), ("local", []), ("api", [])]
    triggers := [("runtime", []), ("local", []), ("api", [])] }

/-- Python `if gid not in registry: registry[gid] = \x7b\x7d`. -/
def regSetdefault {α : Type} (r : Reg α) (gid : String) : Reg α :=
  if (aget r gid).isSome then r else r ++ [(gid, [])]

/-- Python `registry[gid][enum] = v` (the group is always present: the code runs
`regSetdefault` first; on an absent group Python would raise `KeyError`,
modelled as a no-op that the reachable states never hit). -/
def regInsert {α : Type} (r : Reg α) (gid enum : String) (v : α) : Reg α :=
  amodify r gid (fun inner => aset inner enum v)

/-- Python `registry[gid][enum]` as an optional lookup. -/
def regLookup {α : Type} (r : Reg α) (gid enum : String) : Option α :=
  (aget r gid).bind fun inner => aget inner enum

/-- Lookup in the action registry under `(groupId, enum)`. -/
def lookupAction (st : RegistryState) (gid enum : String) : Option RegAction :=
  regLookup st.actions gid enum

/-- Lookup in the tool registry under `(groupId, enum)`. -/
def lookupTool (st : RegistryState) (gid enum : String) : Option RegTool :=
  regLookup st.tools gid enum

/-- The per-action mutation in `ToolBuilder.setup_children`:
`action.tool = obj.name; action.enum = f"{obj.enum}_{action.name.upper()}"`. -/
def registeredAction (toolName toolEnum : String) (a : RegAction) : RegAction :=
  { a with tool := some toolName, enum := toolEnum ++ "_" ++ pyUpper a.name }

/-- Embeds `ToolBuilder.setup_children`: ensures the group exists, then for each
declared action assigns its owning tool and namespaced enum and inserts it
into `obj._actions` and the action registry; mirrors the process for
triggers when the tool declares any. -/
def ToolBuilder.setup_children (obj : RegTool) (st : RegistryState) :
    RegTool × RegistryState :=
  let st1 := { st with actions := regSetdefault st.actions obj.gid }
  let upd := obj.actions.map (registeredAction obj.name obj.enum)
  let obj1 := { obj with
    actions := upd
    actionsMap := upd.foldl (fun m (a : RegAction) => aset m a.enum a) obj.actionsMap }
  let st2 := { st1 with
    actions := upd.foldl (fun r (a : RegAction) => regInsert r obj.gid a.enum a) st1.actions }
  match obj1.triggers with
  | none => (obj1, st2)
  | some trs =>
      let st3 := { st2 with triggers := regSetdefault st2.triggers obj1.gid }
      let tupd := trs.map (registeredAction obj1.name obj1.enum)
      let obj2 := { obj1 with
        triggers := some tupd
        triggersMap := tupd.foldl (fun m (a : RegAction) => aset m a.enum a) obj1.triggersMap }
      let st4 := { st3 with
        triggers := tupd.foldl (fun r (a : RegAction) => regInsert r obj2.gid a.enum a) st3.triggers }
      (obj2, st4)

/-- Embeds `Tool.register`: ensures the group exists in the tool registry and
inserts the tool instance under `(gid, enum)`; it touches nothing else. -/
def Tool.register (cls : RegTool) (st : RegistryState) : RegistryState :=
  { st with tools := regInsert (regSetdefault st.tools cls.gid) cls.gid cls.enum cls }

/-- The external collaborators `Action._generate_schema` calls:
`hashlib.md5(...).hexdigest()` and `inflection.titleize`. -/
structure Externals where
  md5hex : String → String
  titleize : String → String

/-- Python string slicing `s[a:b]` (by code point, as Python does). -/
def pySlice (s : String) (a b : Nat) : String := String.mk ((s.data.take b).drop a)

/-- Python `s[a:]`. -/
def pySliceFrom (s : String) (a : Nat) : String := String.mk (s.data.drop a)

/-- Embeds `generate_app_id`: hyphenates the 32-hex-digit digest into groups of
8-4-4-4-12. -/
def generate_app_id (md5hex : String → String) (name : String) : String :=
  let hash_string := md5hex name
  pyJoin "-" [pySlice hash_string 0 8, pySlice hash_string 8 12, pySlice hash_string 12 16,
    pySlice hash_string 16 20, pySliceFrom hash_string 20]

/-- An Action class as `Action._generate_schema` reads it: metadata set at
declaration, the `tool` attribute assigned only by registration, `_tags`,
and the bound request/response models. -/
structure ActionCls where
  name : String
  enum : String
  tool : Option String
  displayName : String
  doc : Option String
  tagsOpt : Option (List String)
  requestModel : PyModel
  responseModel : PyModel

/-- Embeds `Action.tags`: `cls._tags or []`. -/
def ActionCls.tags (cls : ActionCls) : List String :=
  match cls.tagsOpt with
  | none => []
  | some l => l

/-- Embeds `Action._generate_schema`: the description falls back to
`inflection.titleize(cls.display_name)` for a missing or empty docstring;
the schema dict reads `cls.tool` (an `AttributeError` when registration
never assigned it), derives `appId`, and compiles both contracts.  Fields
are evaluated in source order, so the `cls.tool` read precedes the contract
compilation. -/
def Action.generateSchema (ext : Externals) (cls : ActionCls) : Except PyErr AList :=
  let description := match cls.doc with
    | some d => if d = "" then ext.titleize cls.displayName else pyStrip d
    | none => ext.titleize cls.displayName
  match cls.tool with
  | none => .error (.attributeError "tool")
  | some tool =>
  match Request.schema cls.requestModel with
  | .error e => .error e
  | .ok parameters =>
  .ok [("name", JVal.str cls.name), ("enum", JVal.str cls.enum),
       ("appName", JVal.str tool),
       ("appId", JVal.str (generate_app_id ext.md5hex tool)),
       ("tags", JVal.arr (cls.tags.map JVal.str)),
       ("displayName", JVal.str cls.displayName),
       ("description", JVal.str description),
       ("parameters", JVal.obj parameters),
       ("response", JVal.obj (Response.schema cls.responseModel))]

/-- The class-level `_schema` cache of an Action or Tool type, instrumented
with a count of how many times the document was actually computed. -/
structure SchemaCache where
  cache : Option AList
  computed : Nat

/-- The shared caching pattern of `Action.schema` and `Tool.schema`:
`if cls._schema is None: cls._generate_schema(); return cls._schema`.  A
raise inside generation leaves the cache unset. -/
def cachedSchema (generate : Except PyErr AList) (st : SchemaCache) :
    Except PyErr (AList × SchemaCache) :=
  match st.cache with
  | some d => .ok (d, st)
  | none =>
      match generate with
      | .ok d => .ok (d, { cache := some d, computed := st.computed + 1 })
      | .error e => .error e

/-- Embeds `Action.schema`. -/
def Action.schema (ext : Externals) (cls : ActionCls) (st : SchemaCache) :
    Except PyErr (AList × SchemaCache) :=
  cachedSchema (Action.generateSchema ext cls) st

/-- A Tool class as `Tool._generate_schema` reads it. -/
structure ToolSchemaCls where
  name : String
  displayName : String
  gid : String
  description : String
  file : String
  actions : List ActionCls

/-- Embeds `Tool._generate_schema`: aggregates the child action schemas (each the
document its own cached `schema()` yields) into the tool document, in the
order `actions()` returns them. -/
def Tool.generateSchema (ext : Externals) (cls : ToolSchemaCls) : Except PyErr AList := do
  let actionSchemas ← cls.actions.mapM (Action.generateSchema ext)
  .ok [("name", JVal.str cls.name),
       ("displayName", JVal.str cls.displayName),
       ("metaData", JVal.obj
         [("toolName", JVal.str cls.name), ("groupId", JVal.str cls.gid),
          ("displayName", JVal.str cls.displayName),
          ("description", JVal.str cls.description),
          ("toolPath", JVal.str cls.file)]),
       ("integration", JVal.obj []),
       ("description", JVal.str cls.description),
       ("actions", JVal.arr (actionSchemas.map JVal.obj))]

/-- Embeds `Tool.schema`. -/
def Tool.schema (ext : Externals) (cls : ToolSchemaCls) (st : SchemaCache) :
    Except PyErr (AList × SchemaCache) :=
  cachedSchema (Tool.generateSchema ext cls) st

/-- The shape `ActionBuilder.set_generics` accepts: a single generic base
whose two type arguments are both concrete (distinct from the placeholder
type variables). -/
def genericsBound (origBases : List (List TypeRef)) : Prop :=
  ∃ r s, origBases = [[r, s]] ∧ r ≠ TypeRef.actionRequest ∧ s ≠ TypeRef.actionResponse

/-- Concrete externals for evaluations: a fixed 32-hex digest and identity
titleize. -/
def ext0 : Externals :=
  { md5hex := fun _ => "0123456789abcdef0123456789abcdef", titleize := fun s => s }

/-- Concrete validation-error lists for exercising `_Request.parse`. -/
def missingABErrors : List PydanticFieldError :=
  [{ loc := ["a"], errType := "missing", msg := "Field required" },
   { loc := ["b"], errType := "missing", msg := "Field required" }]

def intParsingError : List PydanticFieldError :=
  [{ loc := ["x"], errType := "int_parsing", msg := "value is not a valid integer" }]

/-- Concrete model `{x: int}` for the response-contract evaluation. -/
def demoModel : PyModel :=
  { name := "DemoModel"
    fields := [{ name := "x", propSchema := [("title", JVal.str "X"), ("type", JVal.str "integer")],
                 required := true }] }

/-- Concrete field marked file-readable and typed string. -/
def attachmentField : FieldDef :=
  { name := "attachment"
    propSchema := [("description", JVal.str "the attachment"),
                   ("file_readable", JVal.bool true),
                   ("title", JVal.str "Attachment"),
                   ("type", JVal.str "string")]
    required := true }

def attachmentModel : PyModel := { name := "AttachmentRequest", fields := [attachmentField] }

/-- The compiled request schema of `attachmentModel`. -/
def attachmentDoc : AList := ((Request.schema attachmentModel).toOption).getD []

/-- The inlined enum branch of `priorityField`. -/
def priorityBranch : AList :=
  [("enum", JVal.arr [JVal.str "high", JVal.str "low"]),
   ("title", JVal.str "Priority"), ("type", JVal.str "string")]

/-- Concrete field whose schema is a single-branch `allOf` reference to an
enumerated type. -/
def priorityField : FieldDef :=
  { name := "priority"
    propSchema := [("allOf", JVal.arr [JVal.obj priorityBranch]),
                   ("description", JVal.str "the priority")]
    required := false }

def priorityModel : PyModel := { name := "PriorityRequest", fields := [priorityField] }

/-- The compiled request schema of `priorityModel`. -/
def priorityDoc : AList := ((Request.schema priorityModel).toOption).getD []

/-- Concrete registered action class for exercising the caches. -/
def demoActionCls : ActionCls :=
  { name := "demo_action", enum := "DEMO_ACTION", tool := some "demo"
    displayName := "Demo action", doc := some "Run a demo.", tagsOpt := none
    requestModel := { name := "DemoRequest", fields := [] }
    responseModel := { name := "DemoResponse", fields := [] } }

/-- The class `demoActionCls` before any registration assigned its `tool`. -/
def unregisteredActionCls : ActionCls :=
  { name := "demo_action", enum := "DEMO_ACTION", tool := none
    displayName := "Demo action", doc := some "Run a demo.", tagsOpt := none
    requestModel := { name := "DemoRequest", fields := [] }
    responseModel := { name := "DemoResponse", fields := [] } }

/-- Concrete tool class for exercising `Tool.schema`. -/
def demoToolSchemaCls : ToolSchemaCls :=
  { name := "demo", displayName := "Demo", gid := "local"
    description := "Demo tool.", file := "demo.py", actions := [] }

/-- The documents the first `schema()` call computes on the demo classes. -/
def demoActionDoc : AList := ((Action.generateSchema ext0 demoActionCls).toOption).getD []

def demoToolDoc : AList := ((Tool.generateSchema ext0 demoToolSchemaCls).toOption).getD []

/-- The `create_issue` action class as declared, before registration. -/
def githubAction : RegAction := { name := "create_issue", enum := "CREATE_ISSUE", tool := none }

/-- A tool declared with `name = "GitHub"` (hence derived enum `GITHUB`),
group id `local`, one action and no triggers. -/
def githubTool : RegTool :=
  { name := "GitHub", enum := "GITHUB", gid := "local", actions := [githubAction]
    actionsMap := [], triggers := none, triggersMap := [] }

theorem aget_aset_self {α : Type} (l : List (String × α)) (k : String) (v : α) :
    aget (aset l k v) k = some v := by
  induction l with
  | nil => simp [aset, aget]
  | cons hd tl ih =>
    by_cases h : hd.1 = k
    · simp [aset, aget, h]
    · simp [aset, aget, h, ih]

theorem aget_aset_ne {α : Type} (l : List (String × α)) (k k' : String) (v : α)
    (h : k' ≠ k) : aget (aset l k v) k' = aget l k' := by
  have h' : ¬ k = k' := fun he => h he.symm
  induction l with
  | nil => simp [aset, aget, h']
  | cons hd tl ih =>
    by_cases hk : hd.1 = k
    · simp [aset, aget, hk, h']
    · by_cases hk' : hd.1 = k'
      · simp [aset, aget, hk, hk', h]
      · simp [aset, aget, hk, hk', ih]

theorem aget_append {α : Type} (l1 l2 : List (String × α)) (k : String) :
    aget (l1 ++ l2) k = match aget l1 k with
      | some v => some v
      | none => aget l2 k := by
  induction l1 with
  | nil => simp [aget]
  | cons hd tl ih =>
    by_cases h : hd.1 = k
    · simp [aget, h]
    · simp [aget, h, ih]

theorem aget_eq_none_of_not_mem {α : Type} (l : List (String × α)) (k : String)
    (h : k ∉ l.map Prod.fst) : aget l k = none := by
  induction l with
  | nil => rfl
  | cons hd tl ih =>
    simp only [List.map_cons, List.mem_cons] at h
    push_neg at h
    have h' : ¬ hd.1 = k := fun he => h.1 he.symm
    simp [aget, h', ih h.2]

theorem mem_keys_of_aget_eq_some {α : Type} (l : List (String × α)) (k : String) (v : α)
    (h : aget l k = some v) : k ∈ l.map Prod.fst := by
  induction l with
  | nil => simp [aget] at h
  | cons hd tl ih =>
    by_cases hk : hd.1 = k
    · simp [hk]
    · simp only [aget, hk, if_false] at h
      simp [ih h]

theorem keys_aset {α : Type} (l : List (String × α)) (k : String) (v : α) :
    (aset l k v).map Prod.fst =
      if k ∈ l.map Prod.fst then l.map Prod.fst else l.map Prod.fst ++ [k] := by
  induction l with
  | nil => simp [aset]
  | cons hd tl ih =>
    by_cases h : hd.1 = k
    · simp [aset, h]
    · have h' : ¬ k = hd.1 := fun he => h he.symm
      by_cases hm : k ∈ tl.map Prod.fst
      · simp [aset, h, ih, hm, h']
      · simp [aset, h, ih, hm, h']

theorem aget_adel_self_of_nodup {α : Type} (l : List (String × α)) (k : String)
    (h : (l.map Prod.fst).Nodup) : aget (adel l k) k = none := by
  induction l with
  | nil => rfl
  | cons hd tl ih =>
    simp only [List.map_cons, List.nodup_cons] at h
    by_cases hk : hd.1 = k
    · simpa [adel, hk] using aget_eq_none_of_not_mem tl k (hk ▸ h.1)
    · simp [adel, aget, hk, ih h.2]

theorem aget_adel_ne {α : Type} (l : List (String × α)) (k k' : String)
    (h : k' ≠ k) : aget (adel l k) k' = aget l k' := by
  have h' : ¬ k = k' := fun he => h he.symm
  induction l with
  | nil => rfl
  | cons hd tl ih =>
    by_cases hk : hd.1 = k
    · simp [adel, aget, hk, h']
    · by_cases hk' : hd.1 = k'
      · simp [adel, aget, hk, hk', h]
      · simp [adel, aget, hk, hk', ih]

theorem aget_aupdate_of_not_mem {α : Type} (d m : List (String × α)) (k : String)
    (h : aget m k = none) : aget (aupdate d m) k = aget d k := by
  induction m generalizing d with
  | nil => rfl
  | cons hd tl ih =>
    by_cases hk : hd.1 = k
    · simp [aget, hk] at h
    · simp only [aget, hk, if_false] at h
      simpa [aupdate, List.foldl_cons] using (ih (aset d hd.1 hd.2) h).trans
        (aget_aset_ne d hd.1 k hd.2 (fun he => hk he.symm))

theorem aget_aupdate_of_mem {α : Type} (d m : List (String × α)) (k : String) (v : α)
    (hnd : (m.map Prod.fst).Nodup) (h : aget m k = some v) :
    aget (aupdate d m) k = some v := by
  induction m generalizing d with
  | nil => simp [aget] at h
  | cons hd tl ih =>
    simp only [List.map_cons, List.nodup_cons] at hnd
    by_cases hk : hd.1 = k
    · simp only [aget, hk, if_true, Option.some.injEq] at h
      have htl : aget tl k = none := aget_eq_none_of_not_mem tl k (hk ▸ hnd.1)
      simpa [aupdate, List.foldl_cons] using
        (aget_aupdate_of_not_mem (aset d hd.1 hd.2) tl k htl).trans
          (hk ▸ h ▸ aget_aset_self d hd.1 hd.2)
    · simp only [aget, hk, if_false] at h
      simpa [aupdate, List.foldl_cons] using ih (aset d hd.1 hd.2) hnd.2 h

theorem toList_append (a b : String) : (a ++ b).toList = a.toList ++ b.toList := by
  simp [String.toList, String.data_append]

theorem infix_of_mem_pyJoin (l : List String) (a sep : String) (h : a ∈ l) :
    a.toList <:+: (pyJoin sep l).toList := by
  induction l with
  | nil => simp at h
  | cons hd tl ih =>
    rcases List.mem_cons.mp h with heq | hmem
    · subst heq
      cases tl with
      | nil => exact List.infix_refl _
      | cons y rest =>
        rw [pyJoin, toList_append, toList_append]
        exact ((List.prefix_append a.toList sep.toList).isInfix).trans
          ((List.prefix_append _ _).isInfix)
    · cases tl with
      | nil => simp at hmem
      | cons y rest =>
        rw [pyJoin, toList_append]
        exact (ih hmem).trans (List.suffix_append _ _).isInfix

theorem infix_append_left (a l r : List Char) (h : a <:+: l) : a <:+: l ++ r :=
  h.trans (List.prefix_append l r).isInfix

theorem infix_append_right (a l r : List Char) (h : a <:+: r) : a <:+: l ++ r :=
  h.trans (List.suffix_append l r).isInfix

theorem aget_amodify_self {α : Type} (l : List (String × α)) (k : String) (f : α → α) :
    aget (amodify l k f) k = (aget l k).map f := by
  induction l with
  | nil => rfl
  | cons hd tl ih =>
    by_cases h : hd.1 = k
    · simp [amodify, aget, h]
    · simp [amodify, aget, h, ih]

theorem aget_amodify_ne {α : Type} (l : List (String × α)) (k k' : String) (f : α → α)
    (h : k' ≠ k) : aget (amodify l k f) k' = aget l k' := by
  have h' : ¬ k = k' := fun he => h he.symm
  induction l with
  | nil => rfl
  | cons hd tl ih =>
    by_cases hk : hd.1 = k
    · simp [amodify, aget, hk, h']
    · by_cases hk' : hd.1 = k'
      · simp [amodify, aget, hk, hk', h]
      · simp [amodify, aget, hk, hk', ih]

theorem regLookup_regInsert_self {α : Type} (r : Reg α) (gid e : String) (v : α)
    (hg : (aget r gid).isSome) : regLookup (regInsert r gid e v) gid e = some v := by
  rcases Option.isSome_iff_exists.mp hg with ⟨inner, hin⟩
  simp [regLookup, regInsert, aget_amodify_self, hin, aget_aset_self]

theorem regLookup_regInsert_ne {α : Type} (r : Reg α) (gid e e' : String) (v : α)
    (h : e' ≠ e) : regLookup (regInsert r gid e v) gid e' = regLookup r gid e' := by
  cases hin : aget r gid with
  | none => simp [regLookup, regInsert, aget_amodify_self, hin]
  | some inner => simp [regLookup, regInsert, aget_amodify_self, hin, aget_aset_ne _ _ _ _ h]

theorem isSome_regInsert {α : Type} (r : Reg α) (gid gid' e : String) (v : α) :
    (aget (regInsert r gid e v) gid').isSome = (aget r gid').isSome := by
  by_cases h : gid' = gid
  · subst h; simp [regInsert, aget_amodify_self]
  · simp [regInsert, aget_amodify_ne _ _ _ _ h]

theorem foldl_regInsert_lookup_of_not_mem (upd : List RegAction) (r : Reg RegAction)
    (gid e : String) (h : e ∉ upd.map RegAction.enum) :
    regLookup (upd.foldl (fun r (a : RegAction) => regInsert r gid a.enum a) r) gid e
      = regLookup r gid e := by
  induction upd generalizing r with
  | nil => rfl
  | cons hd tl ih =>
    simp only [List.map_cons, List.mem_cons] at h
    push_neg at h
    rw [List.foldl_cons, ih _ h.2, regLookup_regInsert_ne _ _ _ _ _ h.1]

theorem foldl_regInsert_lookup_of_mem (upd : List RegAction) (r : Reg RegAction)
    (gid : String) (a : RegAction) (hg : (aget r gid).isSome)
    (hnd : (upd.map RegAction.enum).Nodup) (ha : a ∈ upd) :
    regLookup (upd.foldl (fun r (a : RegAction) => regInsert r gid a.enum a) r) gid a.enum
      = some a := by
  induction upd generalizing r with
  | nil => simp at ha
  | cons hd tl ih =>
    simp only [List.map_cons, List.nodup_cons] at hnd
    rcases List.mem_cons.mp ha with heq | hmem
    · subst heq
      rw [List.foldl_cons, foldl_regInsert_lookup_of_not_mem _ _ _ _ hnd.1]
      exact regLookup_regInsert_self _ _ _ _ hg
    · rw [List.foldl_cons]
      exact ih _ (by rw [isSome_regInsert]; exact hg) hnd.2 hmem

theorem aget_regSetdefault_isSome {α : Type} (r : Reg α) (gid : String) :
    (aget (regSetdefault r gid) gid).isSome := by
  by_cases h : (aget r gid).isSome
  · simp [regSetdefault, h]
  · rw [regSetdefault, if_neg h, aget_append]
    cases hin : aget r gid with
    | some v => simp [hin] at h
    | none => simp [aget]

theorem aget_fieldsMap (l : List FieldDef) (h : (l.map FieldDef.name).Nodup)
    (f : FieldDef) (hf : f ∈ l) :
    aget (l.map fun g => (g.name, JVal.obj g.propSchema)) f.name
      = some (JVal.obj f.propSchema) := by
  induction l with
  | nil => simp at hf
  | cons hd tl ih =>
    simp only [List.map_cons, List.nodup_cons] at h
    rcases List.mem_cons.mp hf with heq | hmem
    · subst heq; simp [aget]
    · have hne : ¬ hd.name = f.name := by
        intro he
        exact h.1 (he ▸ List.mem_map_of_mem FieldDef.name hmem)
      simp only [List.map_cons, aget, hne, if_false]
      exact ih h.2 hmem

theorem transformProps_aget (l l' : AList) (h : transformProps l = .ok l')
    (k : String) (v : JVal) (hv : aget l k = some v) :
    ∃ v', transformPropVal v = .ok v' ∧ aget l' k = some v' := by
  induction l generalizing l' with
  | nil => simp [aget] at hv
  | cons hd tl ih =>
    obtain ⟨k0, v0⟩ := hd
    rw [transformProps] at h
    cases hv0 : transformPropVal v0 with
    | error e => rw [hv0] at h; exact absurd h (by simp)
    | ok w0 =>
      rw [hv0] at h
      cases hrest : transformProps tl with
      | error e => rw [hrest] at h; exact absurd h (by simp)
      | ok rest' =>
        rw [hrest] at h
        simp only [Except.ok.injEq] at h
        subst h
        by_cases hk : k0 = k
        · simp only [aget, hk, if_true, Option.some.injEq] at hv
          subst hv
          exact ⟨w0, hv0, by simp [aget, hk]⟩
        · simp only [aget, hk, if_false] at hv
          rcases ih rest' hrest hv with ⟨v', hv', hget⟩
          exact ⟨v', hv', by simpa [aget, hk] using hget⟩

theorem mem_splitErrors_missing (es : List PydanticFieldError) (e : PydanticFieldError)
    (he : e ∈ es) (ht : e.errType = "missing") : dottedLoc e ∈ (splitErrors es).1 := by
  induction es with
  | nil => simp at he
  | cons hd tl ih =>
    rcases List.mem_cons.mp he with heq | hmem
    · subst heq; simp [splitErrors, ht]
    · by_cases hh : hd.errType = "missing"
      · simpa [splitErrors, hh] using Or.inr (ih hmem)
      · simpa [splitErrors, hh] using ih hmem

theorem mem_splitErrors_others (es : List PydanticFieldError) (e : PydanticFieldError)
    (he : e ∈ es) (ht : ¬ e.errType = "missing") : renderOther e ∈ (splitErrors es).2 := by
  induction es with
  | nil => simp at he
  | cons hd tl ih =>
    rcases List.mem_cons.mp he with heq | hmem
    · subst heq; simp [splitErrors, ht]
    · by_cases hh : hd.errType = "missing"
      · simpa [splitErrors, hh] using ih hmem
      · simpa [splitErrors, hh] using Or.inr (ih hmem)

theorem infix_quoted (x : String) : x.toList <:+: (squote ++ x ++ squote).toList := by
  rw [toList_append, toList_append]
  exact List.infix_append squote.toList x.toList squote.toList

theorem infix_validationMessage_of_mem_missing (es : List PydanticFieldError)
    (x : String) (hx : x ∈ (splitErrors es).1) :
    x.toList <:+: (validationMessage es).toList := by
  rw [validationMessage]
  have hlen : (splitErrors es).1.length > 0 := List.length_pos.mpr (List.ne_nil_of_mem hx)
  simp only [hlen, if_pos]
  rw [toList_append]
  apply infix_append_left
  rw [toList_append, toList_append]
  apply infix_append_right
  rw [pySetRepr, toList_append, toList_append]
  apply infix_append_left
  apply infix_append_right
  exact (infix_quoted x).trans (infix_of_mem_pyJoin _ _ _
    (List.mem_map_of_mem _ (List.mem_dedup.mpr hx)))

theorem infix_validationMessage_of_mem_others (es : List PydanticFieldError)
    (x : String) (hx : x ∈ (splitErrors es).2) :
    x.toList <:+: (validationMessage es).toList := by
  rw [validationMessage]
  rw [toList_append]
  apply infix_append_right
  exact infix_of_mem_pyJoin _ _ _ (List.mem_cons_of_mem _ hx)

theorem toolValidate_error (name : String) (methods : List (String × ToolMethodInfo))
    (h : ∃ p ∈ methods, p.2.isAbstract = true ∨ p.2.isClassMethod = false) :
    ∃ msg, ToolBuilder.validate name methods = .error (.invalidClassDefinition msg) := by
  induction methods with
  | nil => simp at h
  | cons hd tl ih =>
    obtain ⟨m, info⟩ := hd
    rw [ToolBuilder.validate]
    by_cases ha : info.isAbstract = true
    · exact ⟨"Please implement " ++ name ++ "." ++ m, by simp [ha]⟩
    · by_cases hc : info.isClassMethod = false
      · exact ⟨"Please implement " ++ name ++ "." ++ m ++ " as class method",
          by simp [ha, hc]⟩
      · rcases h with ⟨p, hp, hbad⟩
        rcases List.mem_cons.mp hp with heq | hmem
        · subst heq
          rcases hbad with hb | hb
          · exact absurd hb ha
          · exact absurd hb hc
        · rcases ih ⟨p, hmem, hbad⟩ with ⟨msg, hmsg⟩
          exact ⟨msg, by simp [ha, hc, hmsg]⟩

theorem set_generics_error_of_not_bound (name : String) (origBases : List (List TypeRef))
    (h : ¬ genericsBound origBases) :
    ActionBuilder.set_generics name origBases
      = .error (.invalidClassDefinition (genericsMsg name)) := by
  rcases origBases with _ | ⟨args, rest⟩
  · rfl
  · rcases rest with _ | ⟨b, rest2⟩
    · rcases args with _ | ⟨r, args2⟩
      · rfl
      · rcases args2 with _ | ⟨s, args3⟩
        · rfl
        · rcases args3 with _ | ⟨t, args4⟩
          · show (if r = TypeRef.actionRequest ∨ s = TypeRef.actionResponse then
                Except.error (PyErr.invalidClassDefinition (genericsMsg name))
              else Except.ok (r, s))
              = Except.error (PyErr.invalidClassDefinition (genericsMsg name))
            by_cases hp : r = TypeRef.actionRequest ∨ s = TypeRef.actionResponse
            · rw [if_pos hp]
            · push_neg at hp
              exact absurd ⟨r, s, rfl, hp.1, hp.2⟩ h
          · rfl
    · rfl

theorem aget_pydantic_properties (m : PyModel) :
    aget (pydanticModelSchema m) "properties"
      = some (JVal.obj (m.fields.map fun f => (f.name, JVal.obj f.propSchema))) := by
  simp [pydanticModelSchema, aget]

theorem transformPropFields_file_readable (prop : AList) (tyv dv : JVal)
    (hfr : aget prop "file_readable" = some (JVal.bool true))
    (hty : aget prop "type" = some tyv)
    (hdesc : aget prop "description" = some dv) :
    transformPropFields prop = .ok (adel (aset prop "oneOf" (JVal.arr
      [JVal.obj [("type", tyv), ("description", dv)],
       JVal.obj [("type", JVal.str "string"), ("format", JVal.str "file-path"),
                 ("description", JVal.str ("File path to " ++ pyStrOf dv))]])) "type") := by
  have h1 : aget (aset prop "oneOf" (JVal.arr
      [JVal.obj [("type", tyv), ("description", dv)],
       JVal.obj [("type", JVal.str "string"), ("format", JVal.str "file-path"),
                 ("description", JVal.str ("File path to " ++ pyStrOf dv))]])) "type"
      = some tyv := (aget_aset_ne _ _ _ _ (by decide)).trans hty
  rw [transformPropFields.eq_def, hfr, hty, hdesc]
  simp only [Option.getD_some, pyTruthy, if_true]
  rw [h1]

theorem transformPropFields_allof_enum (prop branch : AList) (vs : List JVal) (d : String)
    (hfr : aget prop "file_readable" = none)
    (hall : aget prop "allOf" = some (JVal.arr [JVal.obj branch]))
    (hbe : aget branch "enum" = some (JVal.arr vs))
    (hbnd : (branch.map Prod.fst).Nodup)
    (hbd : aget branch "description" = none)
    (hdesc : aget prop "description" = some (JVal.str d)) :
    transformPropFields prop = .ok (aset (aupdate (adel prop "allOf") branch) "description"
      (JVal.str (d ++ " Note: choose value only from following options - "
        ++ pyStrOf (JVal.arr vs)))) := by
  have hd2 : aget (aupdate (adel prop "allOf") branch) "description" = some (JVal.str d) :=
    (aget_aupdate_of_not_mem _ _ _ hbd).trans
      ((aget_adel_ne _ _ _ (by decide)).trans hdesc)
  have he2 : aget (aupdate (adel prop "allOf") branch) "enum" = some (JVal.arr vs) :=
    aget_aupdate_of_mem _ _ _ _ hbnd hbe
  rw [transformPropFields.eq_def, hfr, hall]
  simp only [Option.getD_none, pyTruthy, Bool.false_eq_true, if_false]
  rw [hbe]
  simp only [Option.isSome_some, if_true]
  rw [hd2, he2]

theorem setup_children_actions (T : RegTool) (st : RegistryState) :
    (ToolBuilder.setup_children T st).1.actions
      = T.actions.map (registeredAction T.name T.enum) := by
  cases ht : T.triggers <;> simp [ToolBuilder.setup_children, ht]

theorem setup_children_state_actions (T : RegTool) (st : RegistryState) :
    (ToolBuilder.setup_children T st).2.actions
      = (T.actions.map (registeredAction T.name T.enum)).foldl
          (fun r (a : RegAction) => regInsert r T.gid a.enum a)
          (regSetdefault st.actions T.gid) := by
  cases ht : T.triggers <;> simp [ToolBuilder.setup_children, ht]

theorem cachedSchema_first (g : Except PyErr AList) (d : AList) (s1 : SchemaCache)
    (h : cachedSchema g { cache := none, computed := 0 } = .ok (d, s1)) :
    cachedSchema g s1 = .ok (d, s1) ∧ s1.computed = 1 := by
  cases hg : g with
  | error e =>
    rw [hg] at h
    exact absurd h (by simp [cachedSchema])
  | ok d0 =>
    rw [hg] at h
    have h' : (Except.ok (d0, ({ cache := some d0, computed := 1 } : SchemaCache))
        : Except PyErr (AList × SchemaCache)) = .ok (d, s1) := h
    simp only [Except.ok.injEq, Prod.mk.injEq] at h'
    obtain ⟨hd, hs⟩ := h'
    subst hd
    subst hs
    exact ⟨rfl, rfl⟩

theorem cachedSchema_cached (g : Except PyErr AList) (st : SchemaCache) (d : AList)
    (h : st.cache = some d) : cachedSchema g st = .ok (d, st) := by
  obtain ⟨c, n⟩ := st
  have h' : c = some d := h
  subst h'
  rfl

/-- Claim C3 (amended): parsing an untyped input that fails validation
raises exactly one aggregated error (a single `ValueError`, called
`ValidationError` by the spec), never one per field; its message mentions every missing
required field (rendered inside a Python set) and renders each non-missing
field error as the message followed by ``" on parameter `"`` and the dotted
path in backticks — not in single quotes as the claim states. -/
theorem C3_parse_single_aggregated_error {M : Type}
    (validate : AList → Except (List PydanticFieldError) M)
    (request : AList) (es : List PydanticFieldError)
    (h : validate request = .error es) :
    Request.parse validate request = .error (.valueError (validationMessage es)) ∧
    (∀ e ∈ es, e.errType = "missing" →
      (dottedLoc e).toList <:+: (validationMessage es).toList) ∧
    (∀ e ∈ es, ¬ e.errType = "missing" →
      (e.msg ++ " on parameter `" ++ dottedLoc e ++ "`").toList
        <:+: (validationMessage es).toList) := by
  refine ⟨by simp [Request.parse, h], ?_, ?_⟩
  · intro e he ht
    exact infix_validationMessage_of_mem_missing es _ (mem_splitErrors_missing es e he ht)
  · intro e he ht
    exact infix_validationMessage_of_mem_others es _ (mem_splitErrors_others es e he ht)

/-- Claim C3 witness: parsing `{}` against a contract requiring `{a, b}`
yields the single aggregated error, whose message mentions both `a` and `b`
as missing. -/
theorem C3_witness :
    Request.parse (fun _ => (Except.error missingABErrors : Except (List PydanticFieldError) Unit))
        ([] : AList)
      = .error (.valueError (validationMessage missingABErrors)) ∧
    ("a" : String).toList <:+: (validationMessage missingABErrors).toList ∧
    ("b" : String).toList <:+: (validationMessage missingABErrors).toList :=
  ⟨(C3_parse_single_aggregated_error _ [] missingABErrors rfl).1,
   (C3_parse_single_aggregated_error
      (fun _ => (Except.error missingABErrors : Except (List PydanticFieldError) Unit))
      [] missingABErrors rfl).2.1
     { loc := ["a"], errType := "missing", msg := "Field required" }
     (List.mem_cons_self _ _) rfl,
   (C3_parse_single_aggregated_error
      (fun _ => (Except.error missingABErrors : Except (List PydanticFieldError) Unit))
      [] missingABErrors rfl).2.1
     { loc := ["b"], errType := "missing", msg := "Field required" }
     (List.mem_cons_of_mem _ (List.mem_cons_self _ _)) rfl⟩

/-- Claim C3 counterexample: the message renders a non-missing field error
with the parameter path in backticks, so the single-quoted rendering the
claim states (the path wrapped in single-quote characters) does not occur in
the message. -/
theorem C3_counterexample :
    Request.parse (fun _ => (Except.error intParsingError : Except (List PydanticFieldError) Unit))
        ([] : AList)
      = .error (.valueError
          "Invalid request data provided\n- value is not a valid integer on parameter `x`") ∧
    ¬ (("value is not a valid integer on parameter " ++ squote ++ "x" ++ squote).toList
        <:+: ("Invalid request data provided\n- value is not a valid integer on parameter `x`"
              : String).toList) := by
  constructor
  · rfl
  · intro hinf
    have h39 : (Char.ofNat 39)
        ∈ ("Invalid request data provided\n- value is not a valid integer on parameter `x`"
           : String).toList := hinf.subset (by decide)
    exact absurd h39 (by decide)

/-- Claim C4: a concrete (non-abstract) Action declaration whose generic
parameters are not bound to two concrete types distinct from the
placeholders, or whose `execute` is still abstract, raises
`DeclarationError` (`InvalidClassDefinition`) at declaration time — the
declaration yields no class, so no instance can be constructed. -/
theorem C4_concrete_action_declaration_error (decl : ActionDecl)
    (habs : decl.absFlag = false) (hname : ¬ decl.name = "Action")
    (hbad : ¬ genericsBound decl.origBases ∨ decl.executeAbstract = true) :
    ∃ msg, ActionMeta.init decl = .error (.invalidClassDefinition msg) := by
  rw [ActionMeta.init]
  have hcond : ¬ (decl.absFlag = true ∨ decl.name = "Action") := by
    rintro (h | h)
    · rw [habs] at h; exact Bool.false_ne_true h
    · exact hname h
  rw [if_neg hcond]
  cases hexec : decl.executeAbstract with
  | true =>
    exact ⟨"Please implement " ++ decl.name ++ ".execute",
      by simp [ActionBuilder.validate, hexec]⟩
  | false =>
    rcases hbad with hng | hex
    · refine ⟨genericsMsg decl.name, ?_⟩
      rw [set_generics_error_of_not_bound decl.name decl.origBases hng]
      simp [ActionBuilder.validate, hexec]
    · rw [hexec] at hex
      exact absurd hex (by simp)

/-- Claim C4 witness: declaring a concrete Action that keeps the placeholder
type variables raises `InvalidClassDefinition`. -/
theorem C4_witness :
    ∃ msg, ActionMeta.init
        { name := "MyAction", absFlag := false
          origBases := [[TypeRef.actionRequest, TypeRef.actionResponse]]
          executeAbstract := false }
      = .error (.invalidClassDefinition msg) :=
  C4_concrete_action_declaration_error _ rfl (by decide)
    (Or.inl (by
      rintro ⟨r, s, heq, hr, hs⟩
      have hra : TypeRef.actionRequest = r ∧ TypeRef.actionResponse = s := by
        simpa using heq
      exact hr hra.1.symm))

/-- Claim C5: declaring a concrete Tool subclass that fails to implement a
required class-level operation (one still abstract, or implemented as an
instance-level rather than class-level method) raises `DeclarationError`,
and the declaration-time hook runs the validation exactly once. -/
theorem C5_tool_declaration_error (name : String)
    (methods : List (String × ToolMethodInfo))
    (h : ∃ p ∈ methods, p.2.isAbstract = true ∨ p.2.isClassMethod = false) :
    (∃ msg, (declareToolType name methods).1 = .error (.invalidClassDefinition msg)) ∧
    (declareToolType name methods).2 = 1 :=
  ⟨toolValidate_error name methods h, rfl⟩

/-- Claim C5 witness: a Tool whose `actions` is still abstract fails
declaration, with the validation run once. -/
theorem C5_witness :
    (∃ msg, (declareToolType "MyTool"
        [("actions", { isAbstract := true, isClassMethod := false })]).1
      = .error (.invalidClassDefinition msg)) ∧
    (declareToolType "MyTool"
        [("actions", { isAbstract := true, isClassMethod := false })]).2 = 1 :=
  C5_tool_declaration_error "MyTool" _
    ⟨("actions", { isAbstract := true, isClassMethod := false }),
     List.mem_cons_self _ _, Or.inl rfl⟩

/-- Claim C8 (amended): `description` equals the trimmed documentation
string whenever the documentation string is present and non-empty as a
string, and equals the (trimmed) `displayName` when it is absent or the
empty string.  A whitespace-only documentation string is truthy in Python,
so it yields the empty description rather than falling back to
`displayName`. -/
theorem C8_description_rule (doc : Option String) (displayName : String) :
    (∀ s, doc = some s → ¬ s = "" →
      setMetadataDescription doc displayName = pyStrip s) ∧
    (doc = none ∨ doc = some "" →
      setMetadataDescription doc displayName = pyStrip displayName) := by
  constructor
  · rintro s rfl hs
    simp [setMetadataDescription, pyOrStr, hs]
  · rintro (rfl | rfl)
    · rfl
    · simp [setMetadataDescription, pyOrStr]

/-- Claim C8 witness: a real docstring is trimmed; a missing docstring falls
back to the display name. -/
theorem C8_witness :
    setMetadataDescription (some " My action. ") "Fallback" = pyStrip " My action. " ∧
    setMetadataDescription none "Fallback" = pyStrip "Fallback" :=
  ⟨(C8_description_rule (some " My action. ") "Fallback").1 " My action. " rfl (by decide),
   (C8_description_rule none "Fallback").2 (Or.inl rfl)⟩

/-- Claim C8 counterexample: a whitespace-only docstring is truthy, so the
code produces the empty description, not the `displayName` the claim
requires. -/
theorem C8_counterexample :
    setMetadataDescription (some " ") "Github" = "" ∧ ¬ ("" : String) = "Github" :=
  ⟨rfl, by decide⟩

/-- Claim C9: the schema document of an Action or Tool type is computed at
most once; the first successful `schema()` call populates the cache
(compute count 1), and every later call returns the identical cached
document with the state unchanged, without recomputation. -/
theorem C9_schema_memoized (ext : Externals) (acls : ActionCls) (tcls : ToolSchemaCls) :
    (∀ d s1, Action.schema ext acls { cache := none, computed := 0 } = .ok (d, s1) →
       Action.schema ext acls s1 = .ok (d, s1) ∧ s1.computed = 1) ∧
    (∀ st d, st.cache = some d → Action.schema ext acls st = .ok (d, st)) ∧
    (∀ d s1, Tool.schema ext tcls { cache := none, computed := 0 } = .ok (d, s1) →
       Tool.schema ext tcls s1 = .ok (d, s1) ∧ s1.computed = 1) ∧
    (∀ st d, st.cache = some d → Tool.schema ext tcls st = .ok (d, st)) :=
  ⟨fun d s1 h => cachedSchema_first _ d s1 h,
   fun st d h => cachedSchema_cached _ st d h,
   fun d s1 h => cachedSchema_first _ d s1 h,
   fun st d h => cachedSchema_cached _ st d h⟩

/-- Claim C9 witness: on the demo classes the first call computes and caches
the document (compute count 1) and the second call returns it unchanged. -/
theorem C9_witness :
    (Action.schema ext0 demoActionCls { cache := some demoActionDoc, computed := 1 }
        = .ok (demoActionDoc, { cache := some demoActionDoc, computed := 1 }) ∧
      ({ cache := some demoActionDoc, computed := 1 } : SchemaCache).computed = 1) ∧
    Tool.schema ext0 demoToolSchemaCls { cache := some demoToolDoc, computed := 1 }
      = .ok (demoToolDoc, { cache := some demoToolDoc, computed := 1 }) :=
  ⟨(C9_schema_memoized ext0 demoActionCls demoToolSchemaCls).1 demoActionDoc
      { cache := some demoActionDoc, computed := 1 } rfl,
   (C9_schema_memoized ext0 demoActionCls demoToolSchemaCls).2.2.2
      { cache := some demoToolDoc, computed := 1 } demoToolDoc rfl⟩

/-- Claim C10: on an Action type whose `tool` attribute was never assigned,
`schema()` fails with an attribute-access error instead of returning a
document (generation reads `cls.tool` before compiling the contracts), and
`schema()` can only succeed on an uncached type when `tool` is assigned. -/
theorem C10_schema_requires_tool (ext : Externals) (cls : ActionCls) (st : SchemaCache)
    (htool : cls.tool = none) (hcache : st.cache = none) :
    Action.schema ext cls st = .error (.attributeError "tool") ∧
    (∀ cls2 st2 r, st2.cache = none → Action.schema ext cls2 st2 = .ok r →
      ¬ cls2.tool = none) := by
  constructor
  · simp [Action.schema, cachedSchema, hcache, Action.generateSchema, htool]
  · intro cls2 st2 r hc2 hok hnone
    have herr : Action.schema ext cls2 st2 = .error (.attributeError "tool") := by
      simp [Action.schema, cachedSchema, hc2, Action.generateSchema, hnone]
    rw [hok] at herr
    exact absurd herr (by simp)

/-- Claim C10 witness: on the unregistered demo action, `schema()` raises the
attribute error for `tool`. -/
theorem C10_witness :
    Action.schema ext0 unregisteredActionCls { cache := none, computed := 0 }
      = .error (.attributeError "tool") :=
  (C10_schema_requires_tool ext0 unregisteredActionCls
    { cache := none, computed := 0 } rfl rfl).1

theorem Request.schema_eq (m : PyModel) :
    Request.schema m
      = match transformProps (m.fields.map fun g => (g.name, JVal.obj g.propSchema)) with
        | .error e => .error e
        | .ok props' => .ok (aset (pydanticModelSchema m) "properties" (JVal.obj props')) := by
  simp only [Request.schema, aget_pydantic_properties]

/-- Claim C2: every response-contract schema keeps the original fields of the
model at top level (not nested), adds `successful` as a required boolean
and `error` as an optional (nullable, default-null) string alongside them,
and carries the declared name of the unwrapped model as its `title`. -/
theorem C2_response_contract_schema (m : PyModel)
    (hnd : (m.fields.map FieldDef.name).Nodup)
    (hs : "successful" ∉ m.fields.map FieldDef.name)
    (he : "error" ∉ m.fields.map FieldDef.name) :
    aget (Response.schema m) "title" = some (JVal.str m.name) ∧
    (∃ props, aget (Response.schema m) "properties" = some (JVal.obj props) ∧
      (∀ f ∈ m.fields, aget props f.name = some (JVal.obj f.propSchema)) ∧
      (∃ sp, aget props "successful" = some (JVal.obj sp) ∧
        aget sp "type" = some (JVal.str "boolean")) ∧
      (∃ ep, aget props "error" = some (JVal.obj ep) ∧
        aget ep "anyOf" = some (JVal.arr [JVal.obj [("type", JVal.str "string")],
                                          JVal.obj [("type", JVal.str "null")]]) ∧
        aget ep "default" = some JVal.null)) ∧
    (∃ req, aget (Response.schema m) "required" = some (JVal.arr req) ∧
      JVal.str "successful" ∈ req ∧ JVal.str "error" ∉ req ∧
      ∀ f ∈ m.fields, f.required = true → JVal.str f.name ∈ req) := by
  have hfields : (Response.wrap m).fields = m.fields ++ [successfulField, errorField] := rfl
  have hwnd : ((Response.wrap m).fields.map FieldDef.name).Nodup := by
    rw [hfields, List.map_append, List.nodup_append]
    refine ⟨hnd, by decide, ?_⟩
    intro a ha hb
    have hb' : a = "successful" ∨ a = "error" := by simpa using hb
    rcases hb' with rfl | rfl
    · exact hs ha
    · exact he ha
  have hfil : (Response.wrap m).fields.filter (fun f => f.required)
      = m.fields.filter (fun f => f.required) ++ [successfulField] := by
    rw [hfields, List.filter_append]; rfl
  have hne : ((Response.wrap m).fields.filter (fun f => f.required)).isEmpty = false := by
    rw [hfil]
    cases m.fields.filter (fun f => f.required) <;> rfl
  refine ⟨?_,
    ⟨(Response.wrap m).fields.map fun f => (f.name, JVal.obj f.propSchema), ?_, ?_, ?_, ?_⟩,
    ⟨((Response.wrap m).fields.filter (fun f => f.required)).map fun f => JVal.str f.name,
      ?_, ?_, ?_, ?_⟩⟩
  · rw [Response.schema]; exact aget_aset_self _ _ _
  · rw [Response.schema, aget_aset_ne _ _ _ _ (by decide)]
    exact aget_pydantic_properties (Response.wrap m)
  · intro f hf
    exact aget_fieldsMap _ hwnd f (by rw [hfields]; exact List.mem_append_left _ hf)
  · exact ⟨successfulField.propSchema,
      aget_fieldsMap _ hwnd successfulField
        (by rw [hfields]; exact List.mem_append_right _ (List.mem_cons_self _ _)), rfl⟩
  · exact ⟨errorField.propSchema,
      aget_fieldsMap _ hwnd errorField
        (by rw [hfields]
            exact List.mem_append_right _ (List.mem_cons_of_mem _ (List.mem_cons_self _ _))),
      rfl, rfl⟩
  · rw [Response.schema, aget_aset_ne _ _ _ _ (by decide)]
    show aget (pydanticModelSchema (Response.wrap m)) "required"
      = some (JVal.arr (((Response.wrap m).fields.filter (fun f => f.required)).map
          fun f => JVal.str f.name))
    simp only [pydanticModelSchema, hne, Bool.false_eq_true, if_false]
    simp [aget]
  · rw [hfil, List.map_append]
    exact List.mem_append_right _ (List.mem_singleton.mpr rfl)
  · intro hmem
    rw [hfil, List.map_append] at hmem
    rcases List.mem_append.mp hmem with hl | hr
    · rcases List.mem_map.mp hl with ⟨f0, hf0, heq⟩
      have hname : f0.name = "error" := by simpa using heq
      exact he (hname ▸ List.mem_map_of_mem _ (List.mem_of_mem_filter hf0))
    · have hr' : ("error" : String) = successfulField.name := by simpa using hr
      exact absurd hr' (by decide)
  · intro f hf hreqf
    rw [hfil, List.map_append]
    exact List.mem_append_left _
      (List.mem_map_of_mem _ (List.mem_filter.mpr ⟨hf, by rw [hreqf]⟩))

/-- Claim C2 witness: the response contract built from `{x: int}` keeps `x`
at top level, adds required boolean `successful` and optional string
`error`, and is titled `DemoModel`. -/
theorem C2_witness :
    aget (Response.schema demoModel) "title" = some (JVal.str "DemoModel") ∧
    (∃ props, aget (Response.schema demoModel) "properties" = some (JVal.obj props) ∧
      (∀ f ∈ demoModel.fields, aget props f.name = some (JVal.obj f.propSchema)) ∧
      (∃ sp, aget props "successful" = some (JVal.obj sp) ∧
        aget sp "type" = some (JVal.str "boolean")) ∧
      (∃ ep, aget props "error" = some (JVal.obj ep) ∧
        aget ep "anyOf" = some (JVal.arr [JVal.obj [("type", JVal.str "string")],
                                          JVal.obj [("type", JVal.str "null")]]) ∧
        aget ep "default" = some JVal.null)) ∧
    (∃ req, aget (Response.schema demoModel) "required" = some (JVal.arr req) ∧
      JVal.str "successful" ∈ req ∧ JVal.str "error" ∉ req ∧
      ∀ f ∈ demoModel.fields, f.required = true → JVal.str f.name ∈ req) :=
  C2_response_contract_schema demoModel (by decide) (by decide) (by decide)

/-- Claim C6: a request-contract field marked file-readable and typed string
compiles to a property whose `oneOf` holds the two branches — the original
declared type with the description, and a `file-path`-formatted string with
its own description — and whose top-level `type` key is removed. -/
theorem C6_file_readable_two_branch (m : PyModel) (doc : AList) (f : FieldDef) (d : String)
    (hok : Request.schema m = .ok doc)
    (hnd : (m.fields.map FieldDef.name).Nodup)
    (hf : f ∈ m.fields)
    (hknd : (f.propSchema.map Prod.fst).Nodup)
    (hfr : aget f.propSchema "file_readable" = some (JVal.bool true))
    (hty : aget f.propSchema "type" = some (JVal.str "string"))
    (hdesc : aget f.propSchema "description" = some (JVal.str d)) :
    ∃ props prop, aget doc "properties" = some (JVal.obj props) ∧
      aget props f.name = some (JVal.obj prop) ∧
      aget prop "oneOf" = some (JVal.arr
        [JVal.obj [("type", JVal.str "string"), ("description", JVal.str d)],
         JVal.obj [("type", JVal.str "string"), ("format", JVal.str "file-path"),
                   ("description", JVal.str ("File path to " ++ d))]]) ∧
      aget prop "type" = none := by
  rw [Request.schema_eq] at hok
  cases htp : transformProps (m.fields.map fun g => (g.name, JVal.obj g.propSchema)) with
  | error e => rw [htp] at hok; exact absurd hok (by simp)
  | ok props' =>
    rw [htp] at hok
    simp only [Except.ok.injEq] at hok
    subst hok
    have hfg : aget (m.fields.map fun g => (g.name, JVal.obj g.propSchema)) f.name
        = some (JVal.obj f.propSchema) := aget_fieldsMap m.fields hnd f hf
    obtain ⟨v', hv', hget⟩ := transformProps_aget _ _ htp f.name _ hfg
    rw [show transformPropVal (JVal.obj f.propSchema)
        = (transformPropFields f.propSchema).map JVal.obj from rfl,
      transformPropFields_file_readable f.propSchema _ _ hfr hty hdesc] at hv'
    have hv'' : v' = JVal.obj (adel (aset f.propSchema "oneOf" (JVal.arr
        [JVal.obj [("type", JVal.str "string"), ("description", JVal.str d)],
         JVal.obj [("type", JVal.str "string"), ("format", JVal.str "file-path"),
                   ("description", JVal.str ("File path to " ++ d))]])) "type") := by
      have := hv'.symm
      simpa [Except.map] using this
    subst hv''
    refine ⟨props', _, aget_aset_self _ _ _, hget, ?_, ?_⟩
    · exact (aget_adel_ne _ _ _ (by decide)).trans (aget_aset_self _ _ _)
    · apply aget_adel_self_of_nodup
      rw [keys_aset]
      by_cases hm : "oneOf" ∈ f.propSchema.map Prod.fst
      · rw [if_pos hm]; exact hknd
      · rw [if_neg hm]
        rw [List.nodup_append]
        refine ⟨hknd, by decide, ?_⟩
        intro a ha hb
        have : a = "oneOf" := by simpa using hb
        exact hm (this ▸ ha)

/-- Claim C6 witness: the `attachment` field of the concrete request model
compiles to the two-branch `oneOf` with no top-level `type`. -/
theorem C6_witness :
    ∃ props prop, aget attachmentDoc "properties" = some (JVal.obj props) ∧
      aget props "attachment" = some (JVal.obj prop) ∧
      aget prop "oneOf" = some (JVal.arr
        [JVal.obj [("type", JVal.str "string"), ("description", JVal.str "the attachment")],
         JVal.obj [("type", JVal.str "string"), ("format", JVal.str "file-path"),
                   ("description", JVal.str ("File path to " ++ "the attachment"))]]) ∧
      aget prop "type" = none :=
  C6_file_readable_two_branch attachmentModel attachmentDoc attachmentField "the attachment"
    rfl (by decide) (List.mem_cons_self _ _) (by decide) rfl rfl rfl

/-- Claim C7: a top-level request property not marked file-readable whose
schema is a single-branch `allOf` reference to an enumerated type is
compiled by inlining the branch (the `allOf` wrapper is removed, the branch
content including `enum` lands in the property) and appending the
options note to the description of the property. -/
theorem C7_allof_enum_inlined (m : PyModel) (doc : AList) (f : FieldDef) (branch : AList)
    (vs : List JVal) (d : String)
    (hok : Request.schema m = .ok doc)
    (hnd : (m.fields.map FieldDef.name).Nodup)
    (hf : f ∈ m.fields)
    (hknd : (f.propSchema.map Prod.fst).Nodup)
    (hfr : aget f.propSchema "file_readable" = none)
    (hall : aget f.propSchema "allOf" = some (JVal.arr [JVal.obj branch]))
    (hbnd : (branch.map Prod.fst).Nodup)
    (hbe : aget branch "enum" = some (JVal.arr vs))
    (hbd : aget branch "description" = none)
    (hba : aget branch "allOf" = none)
    (hdesc : aget f.propSchema "description" = some (JVal.str d)) :
    ∃ props prop, aget doc "properties" = some (JVal.obj props) ∧
      aget props f.name = some (JVal.obj prop) ∧
      aget prop "allOf" = none ∧
      aget prop "enum" = some (JVal.arr vs) ∧
      aget prop "description" = some (JVal.str
        (d ++ " Note: choose value only from following options - "
          ++ pyRepr (JVal.arr vs))) := by
  rw [Request.schema_eq] at hok
  cases htp : transformProps (m.fields.map fun g => (g.name, JVal.obj g.propSchema)) with
  | error e => rw [htp] at hok; exact absurd hok (by simp)
  | ok props' =>
    rw [htp] at hok
    simp only [Except.ok.injEq] at hok
    subst hok
    have hfg : aget (m.fields.map fun g => (g.name, JVal.obj g.propSchema)) f.name
        = some (JVal.obj f.propSchema) := aget_fieldsMap m.fields hnd f hf
    obtain ⟨v', hv', hget⟩ := transformProps_aget _ _ htp f.name _ hfg
    rw [show transformPropVal (JVal.obj f.propSchema)
        = (transformPropFields f.propSchema).map JVal.obj from rfl,
      transformPropFields_allof_enum f.propSchema branch vs d hfr hall hbe hbnd hbd hdesc]
      at hv'
    have hv'' : v' = JVal.obj (aset (aupdate (adel f.propSchema "allOf") branch) "description"
        (JVal.str (d ++ " Note: choose value only from following options - "
          ++ pyStrOf (JVal.arr vs)))) := by
      have := hv'.symm
      simpa [Except.map] using this
    subst hv''
    refine ⟨props', _, aget_aset_self _ _ _, hget, ?_, ?_, ?_⟩
    · rw [aget_aset_ne _ _ _ _ (by decide), aget_aupdate_of_not_mem _ _ _ hba]
      exact aget_adel_self_of_nodup _ _ hknd
    · rw [aget_aset_ne _ _ _ _ (by decide)]
      exact aget_aupdate_of_mem _ _ _ _ hbnd hbe
    · exact aget_aset_self _ _ _

/-- Claim C7 witness: the `priority` field whose `allOf` wraps an enum
branch compiles to an inlined property with the options note appended. -/
theorem C7_witness :
    ∃ props prop, aget priorityDoc "properties" = some (JVal.obj props) ∧
      aget props "priority" = some (JVal.obj prop) ∧
      aget prop "allOf" = none ∧
      aget prop "enum" = some (JVal.arr [JVal.str "high", JVal.str "low"]) ∧
      aget prop "description" = some (JVal.str
        ("the priority" ++ " Note: choose value only from following options - "
          ++ pyRepr (JVal.arr [JVal.str "high", JVal.str "low"]))) :=
  C7_allof_enum_inlined priorityModel priorityDoc priorityField priorityBranch
    [JVal.str "high", JVal.str "low"] "the priority"
    rfl (by decide) (List.mem_cons_self _ _) (by decide) rfl rfl (by decide) rfl rfl rfl rfl

/-- Claim C1 (amended): the action registration happens in the child-setup
step `ToolBuilder.setup_children` (run when the tool class is set up), not
in `Tool.register` itself: after `setup_children`, every declared action `A`
of a tool `T` with group id `g` has `A.tool = T.name` and
`A.enum = "{T.enum}_{A.name upper-cased}"` and is retrievable from the
action registry under `(g, A.enum)`; `Tool.register` only inserts the tool
instance under `(g, T.enum)` and leaves the action registry untouched. -/
theorem C1_setup_children_registers_actions (T : RegTool) (st : RegistryState)
    (hnd : (T.actions.map fun a => T.enum ++ "_" ++ pyUpper a.name).Nodup) :
    (∀ a ∈ T.actions,
       registeredAction T.name T.enum a ∈ (ToolBuilder.setup_children T st).1.actions ∧
       (registeredAction T.name T.enum a).tool = some T.name ∧
       (registeredAction T.name T.enum a).enum = T.enum ++ "_" ++ pyUpper a.name ∧
       lookupAction (ToolBuilder.setup_children T st).2 T.gid (T.enum ++ "_" ++ pyUpper a.name)
         = some (registeredAction T.name T.enum a)) ∧
    (∀ gid enum, lookupAction (Tool.register T st) gid enum = lookupAction st gid enum) ∧
    lookupTool (Tool.register T st) T.gid T.enum = some T := by
  have hmapenum : (T.actions.map (registeredAction T.name T.enum)).map RegAction.enum
      = T.actions.map fun a => T.enum ++ "_" ++ pyUpper a.name := by
    rw [List.map_map]; rfl
  refine ⟨?_, fun gid enum => rfl, ?_⟩
  · intro a ha
    refine ⟨?_, rfl, rfl, ?_⟩
    · rw [setup_children_actions]; exact List.mem_map_of_mem _ ha
    · rw [lookupAction, setup_children_state_actions]
      exact foldl_regInsert_lookup_of_mem (T.actions.map (registeredAction T.name T.enum))
        (regSetdefault st.actions T.gid) T.gid (registeredAction T.name T.enum a)
        (aget_regSetdefault_isSome _ _) (by rw [hmapenum]; exact hnd)
        (List.mem_map_of_mem _ ha)
  · show regLookup (regInsert (regSetdefault st.tools T.gid) T.gid T.enum T) T.gid T.enum
      = some T
    exact regLookup_regInsert_self _ _ _ _ (aget_regSetdefault_isSome _ _)

/-- Claim C1 witness: after `setup_children`, the `create_issue` action of
the tool named `GitHub` with group id `local` is retrievable under
`("local", "GITHUB_CREATE_ISSUE")` with its `tool` set, and `register`
inserts the tool itself under `("local", "GITHUB")`. -/
theorem C1_witness :
    lookupAction (ToolBuilder.setup_children githubTool initialRegistry).2 "local"
        "GITHUB_CREATE_ISSUE" = some (registeredAction "GitHub" "GITHUB" githubAction) ∧
    (registeredAction "GitHub" "GITHUB" githubAction).tool = some "GitHub" ∧
    lookupTool (Tool.register githubTool initialRegistry) "local" "GITHUB"
      = some githubTool := by
  have hnd : (githubTool.actions.map fun a => githubTool.enum ++ "_" ++ pyUpper a.name).Nodup :=
    by decide
  have h := (C1_setup_children_registers_actions githubTool initialRegistry hnd).1
    githubAction (List.mem_cons_self _ _)
  exact ⟨h.2.2.2, h.2.1,
    (C1_setup_children_registers_actions githubTool initialRegistry hnd).2.2⟩

/-- Claim C1 counterexample: calling `Tool.register` alone on the declared
`GitHub` tool, from the pristine module-level registries, does insert the
tool under `("local", "GITHUB")` but does not make `create_issue`
retrievable from the action registry under
`("local", "GITHUB_CREATE_ISSUE")` — `register` never walks the declared
actions; `ToolBuilder.setup_children` does. -/
theorem C1_counterexample :
    lookupAction (Tool.register githubTool initialRegistry) "local" "GITHUB_CREATE_ISSUE"
      = none ∧
    lookupTool (Tool.register githubTool initialRegistry) "local" "GITHUB"
      = some githubTool := by
  constructor
  · rfl
  · rfl

end Composio
